import Mathlib

set_option autoImplicit false

/-!
Verification of the Frontend-Architectures repository: a shallow embedding of
the monolithic template's observable state store (`AppState`), its form
coordinator (`FormManager`), its notification lifecycle, and the two static
file servers, together with theorems settling the specification's claims.

JavaScript objects are embedded as ordered association lists from string keys
to values (`Doc`); real JS objects never carry duplicate keys, which is made
explicit through the `KeysNodup` predicate where it matters.  Callback
functions held by the store are observed through their invocation trace:
subscribers are identified by tokens (reference equality in JS becomes
equality of tokens) and `setState` returns the ordered list of subscriber
calls it performs.
-/

universe u

/-- A JS object: an ordered association list of string keys to values. -/
abbrev Doc (α : Type u) : Type u := List (String × α)

/-- Property lookup `obj[k]`: the value at the first occurrence of key `k`. -/
def getKey {α : Type u} : Doc α → String → Option α
  | [], _ => none
  | (k', v) :: rest, k => if k' = k then some v else getKey rest k

/-- Property write `obj[k] = v`: replace the first occurrence of `k`, or append. -/
def setKey {α : Type u} : Doc α → String → α → Doc α
  | [], k, v => [(k, v)]
  | (k', v') :: rest, k, v =>
      if k' = k then (k, v) :: rest else (k', v') :: setKey rest k v

/-- JS spread `{...a, ...b}`: every key of `b` overrides its key in `a`. -/
def mergeDoc {α : Type u} (a b : Doc α) : Doc α :=
  b.foldl (fun acc kv => setKey acc kv.1 kv.2) a

/-- The keys of an embedded object, in order. -/
def keys {α : Type u} (d : Doc α) : List String := d.map Prod.fst

/-- Well-formedness of an embedded JS object: no duplicate keys. -/
def KeysNodup {α : Type u} (d : Doc α) : Prop := (keys d).Nodup

instance {α : Type u} (d : Doc α) : Decidable (KeysNodup d) :=
  inferInstanceAs (Decidable ((keys d).Nodup))

/-- `firstDefined a b` is `a` when defined, otherwise `b` (the shallow-merge
value choice per key: the later write wins). -/
def firstDefined {α : Type u} : Option α → Option α → Option α
  | some v, _ => some v
  | none, b => b

/-- A middleware `(prevState, pendingUpdates) => updates-or-nothing`; `none`
models a falsy JS return, in which case the pending updates are kept
(`middleware(prevState, processedUpdates) || processedUpdates`). -/
abbrev Middleware (α : Type u) := Doc α → Doc α → Option (Doc α)

/-- One synchronous subscriber invocation `callback(newState, prevState)`,
recorded in the invocation trace of `setState`.  `sub` is the token naming
the callback function. -/
structure SubCall (α : Type u) where
  sub : Nat
  newState : Doc α
  prevState : Doc α
  deriving DecidableEq

/-- The observable store of `src/Monolithic/src/store/state.js`: the document,
the ordered subscriber list and the ordered middleware list. -/
structure AppState (α : Type u) where
  state : Doc α
  subscribers : List Nat
  middlewares : List (Middleware α)

/-- `subscribe(callback)`: push the callback onto the subscriber list. -/
def AppState.subscribe {α : Type u} (s : AppState α) (c : Nat) : AppState α :=
  { s with subscribers := s.subscribers ++ [c] }

/-- The unsubscribe closure returned by `subscribe`:
`this.subscribers = this.subscribers.filter((sub) => sub !== callback)`.
Reference equality of callbacks is equality of tokens. -/
def AppState.unsubscribe {α : Type u} (s : AppState α) (c : Nat) : AppState α :=
  { s with subscribers := s.subscribers.filter (fun sub => sub ≠ c) }

/-- `use(middleware)`: append a middleware. -/
def AppState.use {α : Type u} (s : AppState α) (m : Middleware α) : AppState α :=
  { s with middlewares := s.middlewares ++ [m] }

/-- The middleware fold of `setState`:
`this.middlewares.forEach((m) => { processed = m(prevState, processed) || processed })`. -/
def applyMiddlewares {α : Type u} (ms : List (Middleware α)) (prev upd : Doc α) : Doc α :=
  ms.foldl (fun acc m => (m prev acc).getD acc) upd

/-- `setState(updates)`: snapshot the previous state, run the middleware
pipeline over the pending updates, shallow-merge the result onto the
document, then call every subscriber in order with `(newState, prevState)`.
Returns the updated store and the ordered subscriber-call trace. -/
def AppState.setState {α : Type u} (s : AppState α) (updates : Doc α) :
    AppState α × List (SubCall α) :=
  let prevState := s.state
  let processedUpdates := applyMiddlewares s.middlewares prevState updates
  let newState := mergeDoc prevState processedUpdates
  ({ s with state := newState },
   s.subscribers.map (fun c =>
     { sub := c, newState := newState, prevState := prevState }))

/-- A sequence of `setState` calls, left to right. -/
def AppState.setStates {α : Type u} (s : AppState α) (ups : List (Doc α)) : AppState α :=
  ups.foldl (fun st upd => (AppState.setState st upd).1) s

/-- The last value written to key `k` by a sequence of update objects, if any. -/
def lastWrite {α : Type u} (ups : List (Doc α)) (k : String) : Option α :=
  ups.foldl (fun acc upd => firstDefined (getKey upd k) acc) none

/-- A notification record (`addNotification`): id is the clock read
(`Date.now()`) at creation. -/
structure Notif where
  id : Nat
  message : String
  type : String
  duration : Nat
  deriving DecidableEq

/-- The values stored in the monolithic template's document: section name,
optional user, the notification list, the loading flag, the per-form data
mapping and the statistics record. -/
inductive JVal where
  | str (s : String)
  | boolVal (b : Bool)
  | null
  | notifList (ns : List Notif)
  | statsObj (projects components satisfaction : Nat)
  | formDataObj (fd : List (String × List (String × String)))
  deriving DecidableEq

/-- The initial document of the `AppState` constructor (and of `reset`). -/
def initialState : Doc JVal :=
  [("currentSection", JVal.str "home"),
   ("user", JVal.null),
   ("notifications", JVal.notifList []),
   ("loading", JVal.boolVal false),
   ("formData", JVal.formDataObj []),
   ("stats", JVal.statsObj 0 0 0)]

/-- `reset()`: reassign the initial document wholesale and call every
subscriber with `(this.state, {})` — the previous-state argument is the
empty object literal, and no middleware runs. -/
def AppState.reset (s : AppState JVal) : AppState JVal × List (SubCall JVal) :=
  ({ s with state := initialState },
   s.subscribers.map (fun c =>
     { sub := c, newState := initialState, prevState := [] }))

/-- The `stateToRestore` loop of `restore`: copy, in key order, every
requested key that is defined on the parsed object. -/
def pickKeys {α : Type u} (parsed : Doc α) (ks : List String) : Doc α :=
  ks.foldl (fun acc k =>
    match getKey parsed k with
    | some v => acc ++ [(k, v)]
    | none => acc) []

/-- `restore(keys)`: read the stored payload (if any), `JSON.parse` it —
`parse` returning `none` models the parse throwing, which the surrounding
`try/catch` catches and logs — and `setState` the picked keys.  On a missing
payload or a parse failure the store is returned unchanged with an empty
subscriber-call trace. -/
def AppState.restore {α : Type u} (parse : String → Option (Doc α))
    (stored : Option String) (ks : List String) (s : AppState α) :
    AppState α × List (SubCall α) :=
  match stored with
  | none => (s, [])
  | some payload =>
    match parse payload with
    | none => (s, [])
    | some parsed => AppState.setState s (pickKeys parsed ks)

/-- The result of one validator: `true`, or an error-message string. -/
inductive VResult where
  | ok
  | err (msg : String)
  deriving DecidableEq

abbrev Validator := String → VResult

/-- `required`: `(value && value.trim() !== "") || "This field is required"`. -/
def requiredValidator : Validator := fun value =>
  if value ≠ "" ∧ value.trim ≠ "" then VResult.ok
  else VResult.err "This field is required"

/-- `email`: empty values pass (`if (!value) return true`); otherwise the
platform regex test decides (the regex engine is abstracted as `test`). -/
def emailValidator (test : String → Bool) : Validator := fun value =>
  if value = "" then VResult.ok
  else if test value then VResult.ok
  else VResult.err "Please enter a valid email address"

/-- `pattern(p)`: empty values pass (`if (!value) return true`); otherwise the
platform regex test of `p` decides. -/
def patternValidator (patTest : String → String → Bool) (p : String) : Validator :=
  fun value =>
    if value = "" then VResult.ok
    else if patTest p value then VResult.ok
    else VResult.err "Please enter a valid value"

/-- The attributes `getFieldValidators` inspects on a field element
(`minLength`/`maxLength` are commented out in the source). -/
structure FieldAttrs where
  isRequired : Bool
  typeIsEmail : Bool
  pattern : Option String
  deriving DecidableEq

/-- `FormManager.getFieldValidators`: auto-attach, in this order, the
required validator, the email validator, and the attribute-declared pattern
validator. -/
def FormManager.getFieldValidators (test : String → Bool)
    (patTest : String → String → Bool) (f : FieldAttrs) : List Validator :=
  (if f.isRequired then [requiredValidator] else []) ++
  (if f.typeIsEmail then [emailValidator test] else []) ++
  (match f.pattern with
   | some p => [patternValidator patTest p]
   | none => [])

/-- The validator loop of `FormManager.validateField`: run every validator in
attachment order and push every non-`true` result onto `errors`. -/
def runValidators (vs : List Validator) (value : String) : List String :=
  vs.foldl (fun errs v =>
    match v value with
    | VResult.ok => errs
    | VResult.err m => errs ++ [m]) []

/-- `field.isValid = errors.length === 0`. -/
def fieldIsValid (vs : List Validator) (value : String) : Bool :=
  (runValidators vs value).isEmpty

/-- The message a single validator contributes on the given value, if any. -/
def failMsg (value : String) (v : Validator) : Option String :=
  match v value with
  | VResult.ok => none
  | VResult.err m => some m

/-- `FormManager.updateFieldUI` shows `errors[0]` when there are errors. -/
def displayedError (errors : List String) : Option String := errors.head?

/-- A managed form field: name, current value and attached validators. -/
structure FormField where
  name : String
  value : String
  validators : List Validator

/-- A registered form: its fields and the `resetOnSubmit` flag
(`config.resetOnSubmit !== false`, so `true` by default). -/
structure FormConfig where
  fields : List FormField
  resetOnSubmit : Bool

/-- `FormManager.validateForm`: every field must pass its own validation. -/
def FormManager.validateForm (fields : List FormField) : Bool :=
  fields.all (fun f => fieldIsValid f.validators f.value)

/-- `FormManager.getFormData`: collect field values into a flat mapping. -/
def FormManager.getFormData (fields : List FormField) : List (String × String) :=
  fields.map (fun f => (f.name, f.value))

/-- The externally observable effects of `handleSubmit`, in program order. -/
inductive Effect where
  | setLoading (b : Bool)
  | notifyError (msg : String)
  | notifySuccess (msg : String)
  | callHandler
  | resetForm
  deriving DecidableEq

/-- A submit handler: returns normally or throws an error whose `.message`
is the carried string (`""` models a falsy message, triggering the generic
fallback in `showError(error.message || ...)`). -/
abbrev SubmitHandler := List (String × String) → Except String Unit

/-- `FormManager.handleSubmit`: assert loading, validate the whole form —
aborting with an error notification when invalid — otherwise call the
handler on the collected data; surface a thrown error via `showError`,
or show success and optionally reset; the `finally` block always clears
loading last. -/
def FormManager.handleSubmit (cfg : FormConfig) (handler : SubmitHandler) :
    List Effect :=
  [Effect.setLoading true] ++
  (if FormManager.validateForm cfg.fields = false then
    [Effect.notifyError "Please fix the errors in the form"]
  else
    Effect.callHandler ::
    (match handler (FormManager.getFormData cfg.fields) with
     | Except.ok _ =>
         [Effect.notifySuccess "Form submitted successfully!"] ++
         (if cfg.resetOnSubmit then [Effect.resetForm] else [])
     | Except.error m =>
         [Effect.notifyError
           (if m = "" then "An error occurred while submitting the form"
            else m)])) ++
  [Effect.setLoading false]

/-- What the filesystem yields for a path: missing, unreadable, or data. -/
inductive FileRes where
  | absent
  | readError (msg : String)
  | content (data : String)
  deriving DecidableEq

abbrev FileSystem := String → FileRes

structure HttpResponse where
  status : Nat
  body : String
  deriving DecidableEq

/-- Both servers default the root path to the index document. -/
def resolvePath (path : String) : String :=
  if path = "/" then "/index.html" else path

/-- The text of the dev server's 404 body before the interpolated path. -/
def notFoundPre : String :=
  "<html><head><title>404 - Not Found</title></head><body><h1>404 - File Not Found</h1><p>The requested file <code>"

/-- The text of the dev server's 404 body after the interpolated path. -/
def notFoundPost : String :=
  "</code> was not found.</p><p><a href=\"/\">Back to Home</a></p></body></html>"

/-- The 404 body of the monolithic dev server (whitespace condensed; the
interpolated `pathname` appears inside the `<code>` element). -/
def notFoundBody (pathname : String) : String :=
  notFoundPre ++ pathname ++ notFoundPost

/-- The 500 body of the monolithic dev server (whitespace condensed). -/
def serverErrorBody (msg : String) : String :=
  "<html><head><title>500 - Server Error</title></head><body>" ++
  "<h1>500 - Internal Server Error</h1><p>Error reading file: " ++ msg ++
  "</p></body></html>"

/-- `DevServer.handleRequest` (monolithic dev server): `fs.access` failure
yields 404 with an HTML body naming the path; a read error yields 500;
otherwise 200 with the file data. -/
def DevServer.handleRequest (fs : FileSystem) (path : String) : HttpResponse :=
  let pathname := resolvePath path
  match fs pathname with
  | FileRes.absent => { status := 404, body := notFoundBody pathname }
  | FileRes.readError m => { status := 500, body := serverErrorBody m }
  | FileRes.content data => { status := 200, body := data }

/-- The MVC demo's static server: `fs.readFile` with a single error branch —
any failure (missing file or read error alike) yields 404 with the fixed
plain-text body `Not found`. -/
def mvcServer.handleRequest (fs : FileSystem) (url : String) : HttpResponse :=
  let urlPath := resolvePath url
  match fs urlPath with
  | FileRes.content data => { status := 200, body := data }
  | _ => { status := 404, body := "Not found" }

/-- Substring containment, for "the body contains the requested path". -/
def ContainsSubstr (s sub : String) : Prop := ∃ pre post, s = pre ++ sub ++ post

/-- A pending `setTimeout` of `addNotification`: absolute due time and the
captured notification id. -/
structure Timer where
  fireAt : Nat
  notifId : Nat
  deriving DecidableEq

/-- The notification subsystem: the clock, `state.notifications` (with no
middleware registered, `setState` on the `notifications` key is exactly
wholesale replacement of this list) and the pending timers. -/
structure NotifWorld where
  now : Nat
  notifications : List Notif
  timers : List Timer
  deriving DecidableEq

/-- `removeNotification(id)`: filter the list by id. -/
def removeNotification (ns : List Notif) (i : Nat) : List Notif :=
  ns.filter (fun n => n.id ≠ i)

/-- Advance the clock to `t`, firing every timer due by then.  Each timer's
callback is `removeNotification` of its captured id; since each firing is an
id-filter and filters commute — and no timer schedules another — processing
due timers in registration order yields the same notification list as
processing them in due order. -/
def NotifWorld.advanceTo (w : NotifWorld) (t : Nat) : NotifWorld :=
  { now := t
    notifications := w.timers.foldl
      (fun ns tm => if tm.fireAt ≤ t then removeNotification ns tm.notifId else ns)
      w.notifications
    timers := w.timers.filter (fun tm => t < tm.fireAt) }

/-- `addNotification(message, type, duration)`: the id is the clock read at
creation (`Date.now()`); append the record and schedule a one-shot removal
at `now + duration`. -/
def NotifWorld.addNotification (w : NotifWorld) (message type : String)
    (duration : Nat) : NotifWorld :=
  let n : Notif := { id := w.now, message := message, type := type, duration := duration }
  { w with
    notifications := w.notifications ++ [n]
    timers := w.timers ++ [{ fireAt := w.now + duration, notifId := n.id }] }

/-- The spec's scenario: three notifications with durations 100, 200, 300,
added at clock times `t1 ≤ t2 ≤ t3`, observed 150 time units after the
first add. -/
def notifScenario (t1 t2 t3 : Nat) : NotifWorld :=
  let w0 : NotifWorld := { now := 0, notifications := [], timers := [] }
  let w1 := (w0.advanceTo t1).addNotification "m1" "info" 100
  let w2 := (w1.advanceTo t2).addNotification "m2" "info" 200
  let w3 := (w2.advanceTo t3).addNotification "m3" "info" 300
  w3.advanceTo (t1 + 150)

/-! ## Helper lemmas about the document model -/

theorem getKey_setKey_self {α : Type u} (d : Doc α) (k : String) (v : α) :
    getKey (setKey d k v) k = some v := by
  induction d with
  | nil => simp [setKey, getKey]
  | cons p rest ih =>
    obtain ⟨k', v'⟩ := p
    by_cases h : k' = k
    · simp [setKey, h, getKey]
    · simp [setKey, h, getKey, ih]

theorem getKey_setKey_ne {α : Type u} (d : Doc α) (k k' : String) (v : α)
    (h : k' ≠ k) : getKey (setKey d k v) k' = getKey d k' := by
  have hne : ¬ k = k' := fun hh => h hh.symm
  induction d with
  | nil => simp [setKey, getKey, hne]
  | cons p rest ih =>
    obtain ⟨k0, v0⟩ := p
    by_cases h0 : k0 = k
    · subst h0
      simp [setKey, getKey, hne]
    · simp [setKey, h0, getKey, ih]

theorem getKey_eq_none_of_not_mem {α : Type u} (d : Doc α) (k : String)
    (h : k ∉ keys d) : getKey d k = none := by
  induction d with
  | nil => rfl
  | cons p rest ih =>
    obtain ⟨k', v⟩ := p
    simp only [keys, List.map_cons, List.mem_cons] at h
    push_neg at h
    have hne : ¬ k' = k := fun hh => h.1 hh.symm
    have h2 : k ∉ keys rest := h.2
    simp [getKey, hne, ih h2]

theorem getKey_mergeDoc {α : Type u} (a b : Doc α) (hb : KeysNodup b) (k : String) :
    getKey (mergeDoc a b) k = firstDefined (getKey b k) (getKey a k) := by
  induction b generalizing a with
  | nil => rfl
  | cons p bs ih =>
    obtain ⟨kb, vb⟩ := p
    have hcons := List.nodup_cons.mp (show (kb :: keys bs).Nodup by
      simpa [KeysNodup, keys] using hb)
    have hb' : KeysNodup bs := hcons.2
    have hkb : kb ∉ keys bs := hcons.1
    show getKey (mergeDoc (setKey a kb vb) bs) k = _
    rw [ih (setKey a kb vb) hb']
    by_cases hk : k = kb
    · subst hk
      rw [getKey_eq_none_of_not_mem bs k hkb, getKey_setKey_self]
      simp [getKey, firstDefined]
    · rw [getKey_setKey_ne a kb k vb hk]
      have hkbk : ¬ kb = k := fun hh => hk hh.symm
      simp [getKey, hkbk, firstDefined]

theorem firstDefined_assoc {α : Type u} (a b c : Option α) :
    firstDefined (firstDefined a b) c = firstDefined a (firstDefined b c) := by
  cases a <;> rfl

theorem firstDefined_none_right {α : Type u} (a : Option α) :
    firstDefined a none = a := by
  cases a <;> rfl

theorem lastWrite_foldl_shift {α : Type u} (k : String) (ups : List (Doc α))
    (init x : Option α) :
    firstDefined (ups.foldl (fun acc upd => firstDefined (getKey upd k) acc) init) x
      = ups.foldl (fun acc upd => firstDefined (getKey upd k) acc) (firstDefined init x) := by
  induction ups generalizing init with
  | nil => rfl
  | cons upd us ih =>
    simp only [List.foldl_cons]
    rw [ih, firstDefined_assoc]

theorem getKey_foldl_mergeDoc {α : Type u} (ups : List (Doc α)) (d : Doc α)
    (k : String) (h : ∀ upd ∈ ups, KeysNodup upd) :
    getKey (ups.foldl mergeDoc d) k = firstDefined (lastWrite ups k) (getKey d k) := by
  induction ups generalizing d with
  | nil => rfl
  | cons upd us ih =>
    simp only [List.foldl_cons]
    rw [ih (mergeDoc d upd) (fun x hx => h x (List.mem_cons_of_mem _ hx))]
    rw [getKey_mergeDoc d upd (h upd (List.mem_cons_self _ _)) k]
    show firstDefined (lastWrite us k) _ = firstDefined (lastWrite (upd :: us) k) _
    unfold lastWrite
    simp only [List.foldl_cons]
    rw [lastWrite_foldl_shift, lastWrite_foldl_shift, firstDefined_none_right]
    rfl

theorem setState_nomw_state {α : Type u} (s : AppState α) (upd : Doc α)
    (hmw : s.middlewares = []) :
    (AppState.setState s upd).1 =
      { state := mergeDoc s.state upd
        subscribers := s.subscribers
        middlewares := s.middlewares } := by
  simp [AppState.setState, applyMiddlewares, hmw]

theorem setStates_state_eq {α : Type u} (s : AppState α) (ups : List (Doc α))
    (hmw : s.middlewares = []) :
    (AppState.setStates s ups).state = ups.foldl mergeDoc s.state := by
  induction ups generalizing s with
  | nil => rfl
  | cons upd us ih =>
    show (AppState.setStates (AppState.setState s upd).1 us).state = _
    rw [setState_nomw_state s upd hmw]
    rw [ih { state := mergeDoc s.state upd
             subscribers := s.subscribers
             middlewares := s.middlewares } hmw]
    rfl

theorem count_filter_ne (l : List Nat) (c c' : Nat) :
    (l.filter (fun x => x ≠ c)).count c' = if c' = c then 0 else l.count c' := by
  by_cases hc : c' = c
  · subst hc
    rw [if_pos rfl, List.count_eq_zero]
    intro hmem
    have h2 := (List.mem_filter.mp hmem).2
    simp at h2
  · rw [if_neg hc]
    exact List.count_filter (by simpa using hc)

/-! ## Claims about the observable store -/

/-- Claim C1: on every `setState(updates)` call the registered middlewares
run in registration order, each receiving the pre-update document and the
current pending update object and yielding either a replacement object or
nothing (in which case the pending object is kept unmodified); the resulting
object is shallow-merged onto the document (per key, an updated key
overrides the previous document); and every subscriber is then invoked
synchronously, in subscription order, with the new document and the
pre-update document. -/
theorem setState_pipeline_spec {α : Type u} (s : AppState α) (updates : Doc α) :
    (AppState.setState s updates).1.state
        = mergeDoc s.state (applyMiddlewares s.middlewares s.state updates)
    ∧ (AppState.setState s updates).2
        = s.subscribers.map (fun c =>
            { sub := c
              newState := (AppState.setState s updates).1.state
              prevState := s.state })
    ∧ (∀ (m : Middleware α) (ms : List (Middleware α)) (prev upd : Doc α),
        applyMiddlewares (m :: ms) prev upd
          = applyMiddlewares ms prev ((m prev upd).getD upd))
    ∧ (KeysNodup (applyMiddlewares s.middlewares s.state updates) →
        ∀ k, getKey (AppState.setState s updates).1.state k
          = firstDefined
              (getKey (applyMiddlewares s.middlewares s.state updates) k)
              (getKey s.state k)) := by
  refine ⟨rfl, rfl, fun m ms prev upd => rfl, fun h k => ?_⟩
  exact getKey_mergeDoc s.state _ h k

/-- Claim C1 witness: a concrete `setState` on a store with subscribers and
no middleware, evaluated through the theorem. -/
theorem setState_pipeline_spec_witness :
    getKey (AppState.setState
      { state := [("a", (0 : Nat))], subscribers := [5, 9], middlewares := [] }
      [("b", 1)]).1.state "b" = some 1 := by
  have h := (setState_pipeline_spec
      { state := [("a", (0 : Nat))], subscribers := [5, 9], middlewares := [] }
      [("b", 1)]).2.2.2 (by decide) "b"
  rw [h]
  decide

/-- Claim C3 counterexample: subscribing the same callback (token 7) twice
and invoking the unsubscribe function returned by one subscription removes
BOTH subscriptions — the subscriber list becomes empty and the callback is
not invoked on a subsequent update, contradicting the claimed independence
of duplicate subscriptions. -/
theorem subscribe_twice_not_independent :
    (AppState.unsubscribe
        (AppState.subscribe
          (AppState.subscribe
            ({ state := [], subscribers := [], middlewares := [] } : AppState Nat)
            7) 7) 7).subscribers = []
    ∧ (AppState.setState
        (AppState.unsubscribe
          (AppState.subscribe
            (AppState.subscribe
              ({ state := [], subscribers := [], middlewares := [] } : AppState Nat)
              7) 7) 7)
        [("x", 1)]).2 = [] := by
  constructor <;> rfl

/-- Claim C3 (amended): `subscribe(callback)` appends the callback and
returns an unsubscribe function, but the unsubscribe function filters by
callback identity and therefore removes EVERY subscription of that callback
(duplicate subscriptions of the same callback are not independent);
subscriptions of distinct callbacks are unaffected, and after unsubscribing,
the callback receives no further `setState` notifications. -/
theorem unsubscribe_removes_all {α : Type u} (s : AppState α) (c c' : Nat)
    (upd : Doc α) :
    (AppState.subscribe s c).subscribers = s.subscribers ++ [c]
    ∧ (AppState.unsubscribe s c).subscribers
        = s.subscribers.filter (fun sub => sub ≠ c)
    ∧ ((AppState.unsubscribe s c).subscribers.count c'
        = if c' = c then 0 else s.subscribers.count c')
    ∧ (∀ call ∈ (AppState.setState (AppState.unsubscribe s c) upd).2,
        call.sub ≠ c) := by
  refine ⟨rfl, rfl, count_filter_ne s.subscribers c c', ?_⟩
  intro call hc
  simp only [AppState.setState, List.mem_map] at hc
  obtain ⟨x, hx, rfl⟩ := hc
  simp only [AppState.unsubscribe, List.mem_filter, decide_eq_true_eq] at hx
  exact hx.2

/-- Claim C3 witness: unsubscribing token 3 from `[3, 7, 3]` keeps the one
subscription of token 7, evaluated through the theorem. -/
theorem unsubscribe_removes_all_witness :
    (AppState.unsubscribe
      ({ state := [], subscribers := [3, 7, 3], middlewares := [] } : AppState Nat)
      3).subscribers.count 7 = 1 := by
  have h := (unsubscribe_removes_all
      ({ state := [], subscribers := [3, 7, 3], middlewares := [] } : AppState Nat)
      3 7 []).2.2.1
  rw [h]
  decide

/-- Claim C5: with no middleware registered, a sequence of `setState` calls
leaves the document equal to the left-to-right composition of shallow merges
of the update objects onto the initial document, and per key the value is
the last write to that key (falling back to the initial document),
independently of which fields changed in earlier updates. -/
theorem setStates_compose_spec {α : Type u} (s : AppState α) (ups : List (Doc α))
    (hmw : s.middlewares = []) (hnd : ∀ upd ∈ ups, KeysNodup upd) :
    (AppState.setStates s ups).state = ups.foldl mergeDoc s.state
    ∧ ∀ k, getKey (AppState.setStates s ups).state k
        = firstDefined (lastWrite ups k) (getKey s.state k) := by
  refine ⟨setStates_state_eq s ups hmw, fun k => ?_⟩
  rw [setStates_state_eq s ups hmw]
  exact getKey_foldl_mergeDoc ups s.state k hnd

/-- Claim C5 witness: two updates writing disjoint and overlapping keys,
evaluated through the theorem. -/
theorem setStates_compose_spec_witness :
    getKey (AppState.setStates
      { state := [("a", (0 : Nat))], subscribers := [], middlewares := [] }
      [[("a", 1), ("b", 2)], [("b", 3)]]).state "a" = some 1
    ∧ getKey (AppState.setStates
      { state := [("a", (0 : Nat))], subscribers := [], middlewares := [] }
      [[("a", 1), ("b", 2)], [("b", 3)]]).state "b" = some 3 := by
  have h := (setStates_compose_spec
      { state := [("a", (0 : Nat))], subscribers := [], middlewares := [] }
      [[("a", 1), ("b", 2)], [("b", 3)]] rfl (by decide)).2
  constructor
  · rw [h "a"]; decide
  · rw [h "b"]; decide

/-- Claim C7: when the stored local-storage payload is malformed JSON (the
parse fails), `restore` catches the failure and leaves the store exactly as
it was — the document is unchanged and no subscriber is notified. -/
theorem restore_malformed_spec {α : Type u} (parse : String → Option (Doc α))
    (payload : String) (ks : List String) (s : AppState α)
    (h : parse payload = none) :
    AppState.restore parse (some payload) ks s = (s, []) := by
  simp [AppState.restore, h]

/-- Claim C7 witness: restoring a malformed payload over the initial store,
through the theorem. -/
theorem restore_malformed_spec_witness :
    AppState.restore (fun _ => none) (some "not json") ["user", "formData"]
      { state := initialState, subscribers := [4], middlewares := [] }
      = ({ state := initialState, subscribers := [4], middlewares := [] }, []) :=
  restore_malformed_spec (fun _ => none) "not json" ["user", "formData"] _ rfl

/-- Claim C10: `reset()` restores the document to its initial value and
synchronously notifies every subscriber in order, but passes the empty
object as the previous-document argument (so every key of the previous
document reads as undefined) and runs independently of the registered
middlewares. -/
theorem reset_spec (s : AppState JVal) :
    (AppState.reset s).1.state = initialState
    ∧ (AppState.reset s).1.subscribers = s.subscribers
    ∧ (AppState.reset s).2 = s.subscribers.map (fun c =>
        { sub := c, newState := initialState, prevState := [] })
    ∧ (∀ call ∈ (AppState.reset s).2, ∀ k, getKey call.prevState k = none)
    ∧ (∀ ms, (AppState.reset { s with middlewares := ms }).1.state
          = (AppState.reset s).1.state
        ∧ (AppState.reset { s with middlewares := ms }).2 = (AppState.reset s).2) := by
  refine ⟨rfl, rfl, rfl, ?_, fun ms => ⟨rfl, rfl⟩⟩
  intro call hc k
  simp only [AppState.reset, List.mem_map] at hc
  obtain ⟨x, hx, rfl⟩ := hc
  rfl

/-- Claim C10 witness: resetting a store with a modified document, through
the theorem. -/
theorem reset_spec_witness :
    (AppState.reset
      { state := [("loading", JVal.boolVal true)], subscribers := [2],
        middlewares := [] }).1.state = initialState :=
  (reset_spec _).1

/-! ## Claims about the form coordinator -/

theorem runValidators_foldl_acc (value : String) (vs : List Validator)
    (acc : List String) :
    vs.foldl (fun errs v =>
      match v value with
      | VResult.ok => errs
      | VResult.err m => errs ++ [m]) acc
      = acc ++ vs.filterMap (failMsg value) := by
  induction vs generalizing acc with
  | nil => simp
  | cons v vs ih =>
    simp only [List.foldl_cons, List.filterMap_cons]
    cases hv : v value with
    | ok => simp [failMsg, hv, ih]
    | err m => simp [failMsg, hv, ih]

theorem runValidators_eq_filterMap (vs : List Validator) (value : String) :
    runValidators vs value = vs.filterMap (failMsg value) := by
  simpa using runValidators_foldl_acc value vs []

theorem head?_filterMap_eq_findSome? {β γ : Type u} (f : β → Option γ)
    (l : List β) : (l.filterMap f).head? = l.findSome? f := by
  induction l with
  | nil => rfl
  | cons a l ih =>
    cases hf : f a with
    | none => simp [List.filterMap_cons, List.findSome?_cons, hf, ih]
    | some b => simp [List.filterMap_cons, List.findSome?_cons, hf]

theorem failMsg_eq_none_iff (value : String) (v : Validator) :
    failMsg value v = none ↔ v value = VResult.ok := by
  cases hv : v value <;> simp [failMsg, hv]

/-- Claim C2 counterexample: with two validators that both fail (messages
`A` then `B`), the collected error list is `["A", "B"]` — the second
validator still ran and its message WAS collected, refuting the claimed
short-circuit after the first non-true result. -/
theorem validators_no_short_circuit :
    runValidators [fun _ => VResult.err "A", fun _ => VResult.err "B"] "x"
      = ["A", "B"]
    ∧ ["A", "B"] ≠ ["A"]
    ∧ displayedError
        (runValidators [fun _ => VResult.err "A", fun _ => VResult.err "B"] "x")
      = some "A" := by
  refine ⟨rfl, by decide, rfl⟩

/-- Claim C2 (amended): validating a field runs ALL its validators in
attachment order with no short-circuit — every validator returning a
non-true result contributes its message, in order, to the collected error
list — while the displayed error is the FIRST failing validator's message
(the head of that list), and the field is valid exactly when no validator
fails. -/
theorem validateField_collects_all (vs : List Validator) (value : String) :
    runValidators vs value = vs.filterMap (failMsg value)
    ∧ displayedError (runValidators vs value) = vs.findSome? (failMsg value)
    ∧ (fieldIsValid vs value = true ↔ ∀ v ∈ vs, v value = VResult.ok) := by
  refine ⟨runValidators_eq_filterMap vs value, ?_, ?_⟩
  · rw [displayedError, runValidators_eq_filterMap]
    exact head?_filterMap_eq_findSome? (failMsg value) vs
  · rw [fieldIsValid, runValidators_eq_filterMap, List.isEmpty_iff,
      List.filterMap_eq_nil_iff]
    constructor
    · intro h v hv
      exact (failMsg_eq_none_iff value v).mp (h v hv)
    · intro h v hv
      exact (failMsg_eq_none_iff value v).mpr (h v hv)

/-- Claim C2 witness: a required field with a second failing validator,
evaluated through the theorem — the displayed error is the required
message, the first failure. -/
theorem validateField_collects_all_witness :
    displayedError
      (runValidators [requiredValidator, fun _ => VResult.err "B"] "")
      = some "This field is required" := by
  have h := (validateField_collects_all
      [requiredValidator, fun _ => VResult.err "B"] "").2.1
  rw [h]
  rfl

/-- Claim C9: the auto-attached email-format and pattern validators accept
the empty string, so among the auto-attached validators only `required` can
make an empty field invalid: a field whose attributes do not include
`required` validates cleanly on the empty value, while `required` rejects
it with its message. -/
theorem empty_value_validators (test : String → Bool)
    (patTest : String → String → Bool) (p : String) :
    emailValidator test "" = VResult.ok
    ∧ patternValidator patTest p "" = VResult.ok
    ∧ (∀ attrs : FieldAttrs, attrs.isRequired = false →
        runValidators (FormManager.getFieldValidators test patTest attrs) "" = [])
    ∧ requiredValidator "" = VResult.err "This field is required" := by
  refine ⟨rfl, rfl, ?_, rfl⟩
  rintro ⟨req, em, pat⟩ hreq
  simp only at hreq
  subst hreq
  cases em <;> rcases pat with _ | p0 <;>
    simp [FormManager.getFieldValidators, runValidators, emailValidator,
      patternValidator]

/-- Claim C9 witness: an optional email field with a pattern, empty value,
evaluated through the theorem. -/
theorem empty_value_validators_witness :
    runValidators
      (FormManager.getFieldValidators (fun _ => false) (fun _ _ => false)
        { isRequired := false, typeIsEmail := true, pattern := some "abc" })
      "" = [] := by
  have h := (empty_value_validators (fun _ => false) (fun _ _ => false)
      "abc").2.2.1
      { isRequired := false, typeIsEmail := true, pattern := some "abc" } rfl
  exact h

/-- Claim C4: on submitting a registered form, if whole-form validation
fails the submit handler is never invoked and an error notification is
shown; if the handler throws, the error is caught and surfaced as an error
notification carrying the thrown message or the generic fallback when the
message is falsy; and on every exit path — invalid, handler success,
handler failure — the final effect is clearing the loading state. -/
theorem handleSubmit_spec (cfg : FormConfig) (handler : SubmitHandler) :
    (FormManager.validateForm cfg.fields = false →
      Effect.callHandler ∉ FormManager.handleSubmit cfg handler
      ∧ Effect.notifyError "Please fix the errors in the form"
          ∈ FormManager.handleSubmit cfg handler)
    ∧ (∀ m, FormManager.validateForm cfg.fields = true →
        handler (FormManager.getFormData cfg.fields) = Except.error m →
        Effect.notifyError
            (if m = "" then "An error occurred while submitting the form"
             else m)
          ∈ FormManager.handleSubmit cfg handler)
    ∧ (FormManager.handleSubmit cfg handler).getLast?
        = some (Effect.setLoading false) := by
  refine ⟨?_, ?_, ?_⟩
  · intro h
    constructor
    · simp [FormManager.handleSubmit, h]
    · simp [FormManager.handleSubmit, h]
  · intro m hvalid herr
    simp [FormManager.handleSubmit, hvalid, herr]
  · exact List.getLast?_concat _

/-- Claim C4 witness: a form with one empty required field and a handler
never called — the invalid branch of the theorem applies. -/
theorem handleSubmit_spec_witness :
    Effect.callHandler ∉ FormManager.handleSubmit
      { fields := [{ name := "name", value := "", validators := [requiredValidator] }],
        resetOnSubmit := true }
      (fun _ => Except.ok ()) := by
  have h := (handleSubmit_spec
      { fields := [{ name := "name", value := "", validators := [requiredValidator] }],
        resetOnSubmit := true }
      (fun _ => Except.ok ())).1 (by decide)
  exact h.1

/-! ## Claims about the static file servers -/

/-- Claim C8 counterexample: the MVC demo's static server answers a missing
file with status 404 and the fixed plain-text body `Not found`, which does
not contain the requested path, and answers a read error on an existing
file with 404 rather than 500 — refuting the claim for that server. -/
theorem mvcServer_not_found_counterexample :
    mvcServer.handleRequest (fun _ => FileRes.absent) "/missing.html"
      = { status := 404, body := "Not found" }
    ∧ ¬ ContainsSubstr "Not found" "/missing.html"
    ∧ (mvcServer.handleRequest (fun _ => FileRes.readError "EACCES")
        "/app.js").status = 404 := by
  refine ⟨rfl, ?_, rfl⟩
  rintro ⟨pre, post, h⟩
  have hl := congrArg String.length h
  have h9 : ("Not found" : String).length = 9 := rfl
  have h13 : ("/missing.html" : String).length = 13 := rfl
  simp only [String.length_append] at hl
  omega

/-- Claim C8 (amended): the monolithic dev server answers a GET for a
resolved path that does not exist with HTTP 404 and an HTML body containing
that path, and answers a read error on an existing file with 500; the MVC
demo's static server instead answers 404 with the fixed plain-text body
`Not found` (not containing the path) on every read failure, read errors
included. -/
theorem staticServer_error_responses (fs : FileSystem) (path e : String) :
    (fs (resolvePath path) = FileRes.absent →
      DevServer.handleRequest fs path
          = { status := 404, body := notFoundBody (resolvePath path) }
      ∧ ContainsSubstr (DevServer.handleRequest fs path).body
          (resolvePath path))
    ∧ (fs (resolvePath path) = FileRes.readError e →
        (DevServer.handleRequest fs path).status = 500)
    ∧ (fs (resolvePath path) = FileRes.absent
        ∨ fs (resolvePath path) = FileRes.readError e →
        mvcServer.handleRequest fs path
          = { status := 404, body := "Not found" }) := by
  refine ⟨?_, ?_, ?_⟩
  · intro h
    constructor
    · simp [DevServer.handleRequest, h]
    · refine ⟨notFoundPre, notFoundPost, ?_⟩
      simp [DevServer.handleRequest, h, notFoundBody]
  · intro h
    simp [DevServer.handleRequest, h]
  · rintro (h | h) <;> simp [mvcServer.handleRequest, h]

/-- Claim C8 witness: a missing file on the dev server, through the
theorem — the 404 body contains the requested path. -/
theorem staticServer_error_responses_witness :
    ContainsSubstr
      (DevServer.handleRequest (fun _ => FileRes.absent) "/x.html").body
      "/x.html" := by
  have h := (staticServer_error_responses (fun _ => FileRes.absent)
      "/x.html" "").1 rfl
  have h2 := h.2
  simpa [resolvePath] using h2
/-! ## Claims about the notification lifecycle -/

/-- Claim C6 counterexample: three `addNotification` calls in the same clock
tick share the id `Date.now()` returns; when the first duration elapses, the
single id-filter removes all three records, so after 150 time units zero
notifications remain instead of the claimed two. -/
theorem notif_same_tick_counterexample :
    (notifScenario 0 0 0).notifications = [] := by decide

/-- Claim C6 (amended): each notification self-removes once its duration has
elapsed provided its creation tick (its id) is distinct from the others; in
the 100/200/300 scenario with the first notification created at a strictly
earlier tick than the second and third, 150 time units after the first add
exactly the first has been auto-removed and the other two remain. -/
theorem notifScenario_spec (t1 t2 t3 : Nat) (h12 : t1 < t2) (h23 : t2 ≤ t3)
    (h3 : t3 ≤ t1 + 150) :
    (notifScenario t1 t2 t3).notifications
      = [{ id := t2, message := "m2", type := "info", duration := 200 },
         { id := t3, message := "m3", type := "info", duration := 300 }] := by
  have h2ne1 : ¬ t2 = t1 := by omega
  have h3ne1 : ¬ t3 = t1 := by omega
  have hT2 : ¬ t2 + 200 ≤ t3 := by omega
  have hT2f : t3 < t2 + 200 := by omega
  have hT2' : ¬ t2 + 200 ≤ t1 + 150 := by omega
  have hT2f' : t1 + 150 < t2 + 200 := by omega
  have hT3' : ¬ t3 + 300 ≤ t1 + 150 := by omega
  have hT3f' : t1 + 150 < t3 + 300 := by omega
  have hT1f : t1 + 100 ≤ t1 + 150 := by omega
  have hT1ff : ¬ t1 + 150 < t1 + 100 := by omega
  by_cases hc2 : t1 + 100 ≤ t2
  · have hc3 : t1 + 100 ≤ t3 := le_trans hc2 h23
    have hk2 : ¬ t2 < t1 + 100 := by omega
    have hk3 : ¬ t3 < t1 + 100 := by omega
    simp [notifScenario, NotifWorld.advanceTo, NotifWorld.addNotification,
      removeNotification, hc2, hc3, hT2, hT2f, hT2', hT2f', hT3', hT3f',
      hT1f, hT1ff, h2ne1, h3ne1, hk2, hk3]
  · have hk2 : t2 < t1 + 100 := by omega
    by_cases hc3 : t1 + 100 ≤ t3
    · have hk3 : ¬ t3 < t1 + 100 := by omega
      simp [notifScenario, NotifWorld.advanceTo, NotifWorld.addNotification,
        removeNotification, hc2, hc3, hT2, hT2f, hT2', hT2f', hT3', hT3f',
        hT1f, hT1ff, h2ne1, h3ne1, hk2, hk3]
    · have hk3 : t3 < t1 + 100 := by omega
      simp [notifScenario, NotifWorld.advanceTo, NotifWorld.addNotification,
        removeNotification, hc2, hc3, hT2, hT2f, hT2', hT2f', hT3', hT3f',
        hT1f, hT1ff, h2ne1, h3ne1, hk2, hk3]

/-- Claim C6 witness: adds at ticks 0, 1, 2 — through the theorem, after 150
units only the second and third notifications remain. -/
theorem notifScenario_spec_witness :
    (notifScenario 0 1 2).notifications
      = [{ id := 1, message := "m2", type := "info", duration := 200 },
         { id := 2, message := "m3", type := "info", duration := 300 }] :=
  notifScenario_spec 0 1 2 (by decide) (by decide) (by decide)
